import Mathlib

/-!
Verification of the boilerplatejs core `Context` class (src/core/context.js)
and the lottery `ViewModel` (an unnamed module file).

JavaScript objects are mutable and shared by reference, so the embedding
threads an explicit `World` heap: mediators (event buses) and settings
nodes live in the heap at numeric ids, and a `Context` value holds the
ids of the mediator and settings node it references, mirroring the
fields assigned in the `Context` constructor.

The helper modules `helpers/mediator.js` and `helpers/settings.js` are
not part of the available source; their operational behaviour is
modelled from the spec (see the doc comments on the corresponding
definitions).  `Context` itself, `getSettings`, `addSettings`, `notify`,
`listen`, `getParentContext`, `loadChildContexts` and the lottery
`ViewModel` are translated directly from the source.
-/

/-- A JavaScript value as used by this core: `undefined`, booleans,
numbers (modelled as rationals) and strings. -/
inductive JSValue where
  | undef : JSValue
  | boolean : Bool → JSValue
  | num : ℚ → JSValue
  | str : String → JSValue
deriving DecidableEq, Repr

/-- A JS object used as a dictionary: a mapping from string keys to
values, `none` meaning the key is absent. -/
abbrev JSMap : Type := String → Option JSValue

/-- One node of the settings chain: its own key/value entries and an
optional reference (heap id) to the parent store.
Modelled from the spec: `helpers/settings.js` is not in the available
source; §3/§4.1 describe a store as an `own` mapping plus an optional
read-only `parent` reference. -/
structure SettingsNode where
  own : JSMap
  parent : Option Nat

/-- A mediator (event bus) state: the ordered list of registrations,
each an event name paired with a subscriber callback id.
Modelled from the spec: `helpers/mediator.js` is not in the available
source; §4.2 describes a registry mapping event names to ordered lists
of callbacks, registration order preserved, duplicates allowed. -/
abbrev MediatorState : Type := List (String × Nat)

/-- The mutable world: heaps of mediators and settings nodes addressed
by id, with allocation counters, plus a counter producing fresh
callback ids for closures created at runtime. -/
structure World where
  nextMediator : Nat
  mediatorAt : Nat → Option MediatorState
  nextSettings : Nat
  settingsNode : Nat → Option SettingsNode
  nextCallback : Nat

/-- The world before any allocation has happened. -/
def emptyWorld : World where
  nextMediator := 0
  mediatorAt := fun _ => none
  nextSettings := 0
  settingsNode := fun _ => none
  nextCallback := 0

/-- The constructor `new Mediator()`: allocates a fresh bus with no registrations.
Modelled from the spec: the bus starts with zero subscribers for every
event name. -/
def allocMediator (w : World) : Nat × World :=
  (w.nextMediator,
   { w with
     nextMediator := w.nextMediator + 1
     mediatorAt := fun j =>
       if j = w.nextMediator then some [] else w.mediatorAt j })

/-- The operation `mediator.listen(event, fn)`: appends the registration to the list
for that bus, preserving registration order and keeping duplicates.
Modelled from the spec (§4.2): all registrations are retained, no
de-duplication. -/
def mediatorListen (w : World) (mid : Nat) (event : String) (fn : Nat) : World :=
  match w.mediatorAt mid with
  | none => w
  | some regs =>
      { w with
        mediatorAt := fun j =>
          if j = mid then some (regs ++ [(event, fn)]) else w.mediatorAt j }

/-- The operation `mediator.notify(event, params)`: returns the synchronous invocation
sequence — every callback currently registered for `event`, in
registration order, each paired with the payload it receives.  The bus
state itself is not modified by dispatch.
Modelled from the spec (§4.2): notify invokes, synchronously and in
registration order, every callback registered for the name, passing the
payload as the sole argument; zero subscribers means a no-op. -/
def mediatorNotify (w : World) (mid : Nat) (event : String) (params : JSValue) :
    List (Nat × JSValue) :=
  (((w.mediatorAt mid).getD []).filter (fun r => r.1 == event)).map
    (fun r => (r.2, params))

/-- The constructor `new Settings(parentSettings?)`: allocates a fresh settings node with
an empty own mapping, chained to the given parent node if supplied.
Modelled from the spec (§4.1): a new store optionally takes a parent
store reference. -/
def allocSettings (w : World) (parent : Option Nat) : Nat × World :=
  (w.nextSettings,
   { w with
     nextSettings := w.nextSettings + 1
     settingsNode := fun j =>
       if j = w.nextSettings then some ⟨fun _ => none, parent⟩
       else w.settingsNode j })

/-- The merge performed by `settings.load(newSettings)` on the own
mapping: keys present in the new entries replace existing ones, other
keys are kept.
Modelled from the spec (§4.1): merges `newEntries` into the node's own
mapping; any key already present is replaced, keys not present are
added. -/
def loadMerge (own newSettings : JSMap) : JSMap :=
  fun k =>
    match newSettings k with
    | some v => some v
    | none => own k

/-- The operation `settings.load(newSettings)` on the node at heap id `sid`: mutates
only that node's own mapping.
Modelled from the spec (§4.1): side effect mutates only this node. -/
def settingsLoad (w : World) (sid : Nat) (newSettings : JSMap) : World :=
  { w with
    settingsNode := fun j =>
      if j = sid then
        (w.settingsNode j).map (fun nd => ⟨loadMerge nd.own newSettings, nd.parent⟩)
      else w.settingsNode j }

/-- The recursion underlying `settings.items()`, with explicit fuel: at a
node, its own entry for the key wins, otherwise the lookup falls
through to the parent node.  In well-formed heaps a node's parent id is
strictly smaller than its own id, so fuel `i + 1` always suffices for
node `i`. -/
def itemsGo (w : World) : Nat → Nat → JSMap
  | 0, _ => fun _ => none
  | fuel + 1, i => fun k =>
    match w.settingsNode i with
    | none => none
    | some nd =>
      match nd.own k with
      | some v => some v
      | none =>
        match nd.parent with
        | some j => itemsGo w fuel j k
        | none => none

/-- The read `settings.items()` on the node at heap id `i`: the flattened
snapshot in which this node's own entries shadow identically-keyed
ancestor entries, recursively.
Modelled from the spec (§4.1/§3): a lookup reflects the node's own
entries where present, else falls through to parent entries,
recursively. -/
def items (w : World) (i : Nat) : JSMap := itemsGo w (i + 1) i

/-- A context object: the `parentContext`, `mediator` and `settings`
fields assigned by the constructor in src/core/context.js (the latter
two held as heap ids, since they are references to shared mutable
objects). -/
inductive Context where
  | mk (parentContext : Option Context) (mediator : Nat) (settings : Nat)

/-- The `parentContext` field. -/
def Context.parentContext : Context → Option Context
  | .mk p _ _ => p

/-- The `mediator` field (heap id of the bus). -/
def Context.mediator : Context → Nat
  | .mk _ m _ => m

/-- The `settings` field (heap id of the settings node). -/
def Context.settings : Context → Nat
  | .mk _ _ s => s

/-- The `Context` constructor (src/core/context.js lines 28–32):
stores the parent reference; reuses the parent's mediator when a parent
is supplied, otherwise allocates a new one; allocates a fresh settings
node chained to the parent's settings node when a parent is supplied. -/
def Context.new (parentContext : Option Context) (w : World) : Context × World :=
  let mw : Nat × World :=
    match parentContext with
    | some p => (p.mediator, w)
    | none => allocMediator w
  let sw : Nat × World := allocSettings mw.2 (parentContext.map Context.settings)
  (.mk parentContext mw.1 sw.1, sw.2)

/-- Method `Context.prototype.getSettings` (lines 47–49): returns
`this.settings.items()`. -/
def Context.getSettings (c : Context) (w : World) : JSMap :=
  items w c.settings

/-- Method `Context.prototype.addSettings` (lines 55–57): delegates to
`this.settings.load(newSettings)`. -/
def Context.addSettings (c : Context) (w : World) (newSettings : JSMap) : World :=
  settingsLoad w c.settings newSettings

/-- Method `Context.prototype.notify` (lines 64–66): delegates to
`this.mediator.notify(event, params)`. -/
def Context.notify (c : Context) (w : World) (event : String) (params : JSValue) :
    List (Nat × JSValue) :=
  mediatorNotify w c.mediator event params

/-- Method `Context.prototype.listen` (lines 73–75): delegates to
`this.mediator.listen(event, fn)`. -/
def Context.listen (c : Context) (w : World) (event : String) (fn : Nat) : World :=
  mediatorListen w c.mediator event fn

/-- Method `Context.prototype.getParentContext` (lines 124–126): returns the
stored `parentContext` field. -/
def Context.getParentContext (c : Context) : Option Context :=
  c.parentContext

/-- Method `Context.prototype.loadChildContexts` (lines 132–137): iterates the
entries of `children` and evaluates `new ChildContextClass(this)` for
each, discarding the result.  Child-context classes are modelled as
abstract constructor ids, and the function returns the sequence of
construction calls the loop performs, each a class id paired with the
argument passed to the constructor; the loop produces no other value. -/
def Context.loadChildContexts (c : Context) (children : List (String × Nat)) :
    List (Nat × Context) :=
  children.foldl (fun trace kv => trace ++ [(kv.2, c)]) []

/-- The lottery view model object (the unnamed module file): three
knockout observables, modelled as plain cells.  `hasWon` starts as
`false`; `luckyNumber` and `yourNumber` start undefined. -/
structure ViewModel where
  hasWon : Bool
  luckyNumber : Option ℚ
  yourNumber : Option JSValue

/-- The `ViewModel` constructor (unnamed module file, lines 3–14):
initializes the observables and subscribes one callback to the
`"LOTTERY_ACTIVITY"` event on the module context.  The closure passed
to `listen` is represented by a fresh callback id drawn from the world;
its behaviour on dispatch is `lotteryStep` below. -/
def ViewModel.new (moduleContext : Context) (w : World) : ViewModel × World :=
  let w1 : World := { w with nextCallback := w.nextCallback + 1 }
  (⟨false, none, none⟩,
   Context.listen moduleContext w1 "LOTTERY_ACTIVITY" w.nextCallback)

/-- The body of the `"LOTTERY_ACTIVITY"` callback (lines 9–13): sets
`luckyNumber` to `Math.floor(Math.random() * 3) + 1`, sets `yourNumber`
to the received `activityNumber`, and sets `hasWon` to the strict
equality `luckyNumber() === yourNumber()`.  The value returned by
`Math.random()` is passed in as `r`; its contract is `0 ≤ r < 1`. -/
def lotteryStep (r : ℚ) (vm : ViewModel) (activityNumber : JSValue) : ViewModel :=
  let lucky : ℚ := ((⌊r * 3⌋ : ℤ) : ℚ) + 1
  { hasWon := JSValue.num lucky == activityNumber
    luckyNumber := some lucky
    yourNumber := some activityNumber }

/-- The flattened merge described by the spec's shadowing law, stated
over the list of the chain's own mappings ordered root first: a key's
value is the one given by the mapping closest to the deepest node among
those that define it.  This is the spec-side definition that
`settings.items()` is compared against. -/
def specMerge (ms : List JSMap) : JSMap :=
  fun k =>
    ms.foldl
      (fun acc m =>
        match m k with
        | some v => some v
        | none => acc)
      none

/-- The one-entry JS object `{k: v}`. -/
def singleMap (k : String) (v : JSValue) : JSMap :=
  fun k' => if k' = k then some v else none

/-- Builds a settings chain below the context `c`: for each mapping in
the list, constructs a child context of the current node and loads the
mapping into it, returning the deepest context and the final world. -/
def buildChainFrom (c : Context) (w : World) : List JSMap → Context × World
  | [] => (c, w)
  | m :: ms =>
    let cw : Context × World := Context.new (some c) w
    buildChainFrom cw.1 (Context.addSettings cw.1 cw.2 m) ms

/-- Builds a settings chain of depth `ms.length + 1` from scratch: a
root context loaded with `m0`, then one descendant per element of `ms`,
each loaded with its mapping.  Returns the deepest context and the
final world. -/
def buildChain (w : World) (m0 : JSMap) (ms : List JSMap) : Context × World :=
  let rw : Context × World := Context.new none w
  buildChainFrom rw.1 (Context.addSettings rw.1 rw.2 m0) ms

/-- Relation `Desc r c`: the context `c` is obtained from `r` by repeated child
construction (in arbitrary intermediate worlds), i.e. `c` belongs to
the hierarchy rooted at `r`. -/
inductive Desc : Context → Context → Prop where
  | refl (r : Context) : Desc r r
  | step (r c : Context) (w : World) : Desc r c → Desc r (Context.new (some c) w).1

/-- Fixture: a root context created in the empty world, with the world
that creation produces. -/
def rootPair : Context × World := Context.new none emptyWorld

/-- Fixture: a child of `rootPair`'s context, with the resulting world. -/
def childPair : Context × World := Context.new (some rootPair.1) rootPair.2

/-- Fixture: a grandchild below `childPair`, with the resulting world. -/
def grandchildPair : Context × World := Context.new (some childPair.1) childPair.2

/-- Well-formed worlds: every allocated settings node has a strictly
smaller parent id (heap ids grow with allocation and a node's parent is
always allocated earlier), and no node lives at or beyond the
allocation counter.  Every world built from `emptyWorld` by the
operations above satisfies this. -/
structure WFW (w : World) : Prop where
  parentLt : ∀ i nd, w.settingsNode i = some nd → ∀ j, nd.parent = some j → j < i
  fresh : ∀ i, w.nextSettings ≤ i → w.settingsNode i = none

/-- The empty world is well-formed. -/
theorem WFW.empty : WFW emptyWorld := by
  constructor
  · intro i nd h
    simp [emptyWorld] at h
  · intro i _
    rfl

/-- A settings lookup at node `i` only reads heap cells with ids at
most `i` (by well-formedness, parents strictly decrease), so two worlds
that agree on those cells give the same lookup. -/
theorem itemsGo_congr (w w' : World) (hw : WFW w) (fuel : Nat) :
    ∀ i, (∀ j, j ≤ i → w'.settingsNode j = w.settingsNode j) →
    ∀ k, itemsGo w' fuel i k = itemsGo w fuel i k := by
  induction fuel with
  | zero => intro i _ k; rfl
  | succ f ih =>
    intro i hagree k
    simp only [itemsGo]
    rw [hagree i le_rfl]
    cases hnode : w.settingsNode i with
    | none => rfl
    | some nd =>
      dsimp only
      cases ho : nd.own k with
      | some v => rfl
      | none =>
        cases hp : nd.parent with
        | none => rfl
        | some j =>
          have hj : j < i := hw.parentLt i nd hnode j hp
          exact ih j (fun jj hjj => hagree jj (le_trans hjj (le_of_lt hj))) k

/-- In a well-formed world the fuel of `itemsGo` is irrelevant as soon
as it exceeds the node id. -/
theorem itemsGo_fuel (w : World) (hw : WFW w) :
    ∀ i f g, i < f → i < g → ∀ k, itemsGo w f i k = itemsGo w g i k := by
  intro i
  induction i using Nat.strong_induction_on with
  | _ i ih =>
    intro f g hf hg k
    match f, g with
    | ff + 1, gg + 1 =>
      simp only [itemsGo]
      cases hnode : w.settingsNode i with
      | none => rfl
      | some nd =>
        dsimp only
        cases ho : nd.own k with
        | some v => rfl
        | none =>
          cases hp : nd.parent with
          | none => rfl
          | some j =>
            have hj : j < i := hw.parentLt i nd hnode j hp
            exact ih j hj ff gg
              (lt_of_lt_of_le hj (Nat.lt_succ_iff.mp hf))
              (lt_of_lt_of_le hj (Nat.lt_succ_iff.mp hg)) k

/-- Version of `itemsGo_congr` stated for `items`. -/
theorem items_congr (w w' : World) (hw : WFW w) (i : Nat)
    (hagree : ∀ j, j ≤ i → w'.settingsNode j = w.settingsNode j) (k : String) :
    items w' i k = items w i k :=
  itemsGo_congr w w' hw (i + 1) i hagree k

/-- Well-formedness only concerns the settings heap, so it transfers
along agreement of the settings fields. -/
theorem WFW.ofSettingsEq (w w' : World) (hw : WFW w)
    (hn : w'.settingsNode = w.settingsNode) (hx : w'.nextSettings = w.nextSettings) :
    WFW w' := by
  constructor
  · intro i nd h j hp
    exact hw.parentLt i nd (hn ▸ h) j hp
  · intro i hi
    rw [hn]
    exact hw.fresh i (hx ▸ hi)

/-- Allocating a mediator does not touch the settings heap. -/
theorem WFW.medAlloc (w : World) (hw : WFW w) : WFW (allocMediator w).2 :=
  WFW.ofSettingsEq w _ hw rfl rfl

/-- Registering a subscriber does not touch the settings heap. -/
theorem WFW.medListen (w : World) (hw : WFW w) (mid : Nat) (e : String) (fn : Nat) :
    WFW (mediatorListen w mid e fn) := by
  unfold mediatorListen
  cases w.mediatorAt mid with
  | none => exact hw
  | some regs => exact WFW.ofSettingsEq w _ hw rfl rfl

/-- Allocating a settings node whose parent (if any) is already
allocated preserves well-formedness. -/
theorem WFW.setAlloc (w : World) (hw : WFW w) (parent : Option Nat)
    (hpar : ∀ j, parent = some j → j < w.nextSettings) :
    WFW (allocSettings w parent).2 := by
  constructor
  · intro i nd h j hp
    simp only [allocSettings] at h
    by_cases hi : i = w.nextSettings
    · subst hi
      simp only [if_pos rfl] at h
      cases h
      exact hpar j hp
    · rw [if_neg hi] at h
      exact hw.parentLt i nd h j hp
  · intro i hi
    simp only [allocSettings] at hi ⊢
    have hne : i ≠ w.nextSettings := by omega
    rw [if_neg hne]
    exact hw.fresh i (by omega)

/-- Loading settings into a node preserves well-formedness: the merge
changes only the own mapping, never the parent link, and creates no
node. -/
theorem WFW.setLoad (w : World) (hw : WFW w) (sid : Nat) (m : JSMap) :
    WFW (settingsLoad w sid m) := by
  constructor
  · intro i nd h j hp
    simp only [settingsLoad] at h
    by_cases hi : i = sid
    · subst hi
      rw [if_pos rfl] at h
      cases hold : w.settingsNode i with
      | none => rw [hold] at h; cases h
      | some nd0 =>
        rw [hold] at h
        simp only [Option.map_some'] at h
        cases h
        exact hw.parentLt i nd0 hold j hp
    · rw [if_neg hi] at h
      exact hw.parentLt i nd h j hp
  · intro i hi
    simp only [settingsLoad]
    by_cases hi2 : i = sid
    · subst hi2
      rw [if_pos rfl, hw.fresh i hi]
      rfl
    · rw [if_neg hi2]
      exact hw.fresh i hi

/-- Folding a list of `listen` registrations on one mediator appends
them, in order, to the bus's registration list. -/
theorem mediatorListen_foldl (mid : Nat) :
    ∀ (regs : List (String × Nat)) (w : World) (l : MediatorState),
    w.mediatorAt mid = some l →
    ((regs.foldl (fun acc ec => mediatorListen acc mid ec.1 ec.2) w).mediatorAt mid)
      = some (l ++ regs) := by
  intro regs
  induction regs with
  | nil => intro w l h; simpa using h
  | cons ec rest ih =>
    intro w l h
    rw [List.foldl_cons]
    have hstep : (mediatorListen w mid ec.1 ec.2).mediatorAt mid = some (l ++ [ec]) := by
      unfold mediatorListen
      rw [h]
      simp
    rw [ih (mediatorListen w mid ec.1 ec.2) (l ++ [ec]) hstep]
    simp

/-- Membership in `mediatorNotify`: every registration for the notified
event yields an invocation carrying the payload. -/
theorem mediatorNotify_mem (w : World) (mid : Nat) (event : String) (p : JSValue)
    (regs : MediatorState) (hreg : w.mediatorAt mid = some regs)
    (cb : Nat) (hmem : (event, cb) ∈ regs) :
    (cb, p) ∈ mediatorNotify w mid event p := by
  unfold mediatorNotify
  rw [hreg]
  refine List.mem_map.mpr ⟨(event, cb), ?_, rfl⟩
  refine List.mem_filter.mpr ⟨hmem, ?_⟩
  simp


/-- Evaluation of `loadChildContexts`: exactly the construction calls listed
by the entries, in iteration order, with `this` as the argument. -/
theorem loadChildContexts_eq (c : Context) (children : List (String × Nat)) :
    Context.loadChildContexts c children = children.map (fun kv => (kv.2, c)) := by
  have hgen : ∀ (l : List (String × Nat)) (init : List (Nat × Context)),
      l.foldl (fun trace kv => trace ++ [(kv.2, c)]) init
        = init ++ l.map (fun kv => (kv.2, c)) := by
    intro l
    induction l with
    | nil => intro init; simp
    | cons kv rest ih => intro init; simp [ih]
  simpa using hgen children []

/-- C8: `getParentContext` returns the parent stored at construction
when one was supplied, and the absent value (`none`) for a root.  It is
a pure accessor: it takes no world, mutates nothing and cannot throw
(it is a total function). -/
theorem claim_C8_getParentContext (p : Context) (w w' : World) :
    (Context.new (some p) w).1.getParentContext = some p ∧
    (Context.new none w').1.getParentContext = none := by
  exact ⟨rfl, rfl⟩

/-- C9: `loadChildContexts` constructs exactly one instance per entry of
the mapping — one construction call per entry, every call receiving the
parent context itself as the constructor argument — and produces no
other value; in particular for a single-entry mapping `{a: K}` the
class `K` is constructed exactly once with argument `P`. -/
theorem claim_C9_loadChildContexts (P : Context) (children : List (String × Nat)) :
    (∀ kv, kv ∈ children → (kv.2, P) ∈ Context.loadChildContexts P children) ∧
    (Context.loadChildContexts P children).length = children.length ∧
    (∀ call, call ∈ Context.loadChildContexts P children → call.2 = P) ∧
    (∀ a K, Context.loadChildContexts P [(a, K)] = [(K, P)]) := by
  refine ⟨?_, ?_, ?_, ?_⟩
  · intro kv hkv
    rw [loadChildContexts_eq]
    exact List.mem_map.mpr ⟨kv, hkv, rfl⟩
  · rw [loadChildContexts_eq]
    exact List.length_map children _
  · intro call hcall
    rw [loadChildContexts_eq] at hcall
    obtain ⟨kv, _, hkv⟩ := List.mem_map.mp hcall
    rw [← hkv]
  · intro a K
    rw [loadChildContexts_eq]
    rfl

/-- C9 witness: with the single-entry mapping `{a: 5}` on the fixture
root context, the construction trace contains the call `(5, root)`. -/
theorem claim_C9_witness :
    ((5 : Nat), rootPair.1) ∈ Context.loadChildContexts rootPair.1 [("a", 5)] :=
  (claim_C9_loadChildContexts rootPair.1 [("a", 5)]).1 ("a", 5) (by simp)

/-- C2: every context obtained from a root by repeated child
construction holds the root's mediator id (the identical bus instance),
and constructing a child with a parent supplied allocates no mediator:
the mediator heap and its allocation counter are untouched. -/
theorem claim_C2_shared_mediator (r c : Context) (h : Desc r c) :
    c.mediator = r.mediator ∧
    ∀ (p : Context) (w : World),
      (Context.new (some p) w).2.mediatorAt = w.mediatorAt ∧
      (Context.new (some p) w).2.nextMediator = w.nextMediator := by
  constructor
  · induction h with
    | refl => rfl
    | step _ _ _ ih => exact ih
  · intro p w
    exact ⟨rfl, rfl⟩

/-- C2 witness: the fixture grandchild holds the same mediator id as
the fixture root, and child construction preserves the mediator heap of
the world it runs in. -/
theorem claim_C2_witness :
    grandchildPair.1.mediator = rootPair.1.mediator ∧
    ∀ (p : Context) (w : World),
      (Context.new (some p) w).2.mediatorAt = w.mediatorAt ∧
      (Context.new (some p) w).2.nextMediator = w.nextMediator :=
  claim_C2_shared_mediator rootPair.1 grandchildPair.1
    (Desc.step _ _ childPair.2 (Desc.step _ _ rootPair.2 (Desc.refl _)))

/-- C7: after `listen(E, cb1); listen(E, cb2)` on a freshly created root
context, `notify(E, p)` produces exactly the invocation sequence
`[(cb1, p), (cb2, p)]`: each callback invoked exactly once, in
registration order, each receiving the payload as its sole argument
(dispatch in the model is the synchronous invocation list). -/
theorem claim_C7_listen_order (w : World) (E : String) (cb1 cb2 : Nat) (p : JSValue) :
    Context.notify (Context.new none w).1
      (Context.listen (Context.new none w).1
        (Context.listen (Context.new none w).1 (Context.new none w).2 E cb1) E cb2)
      E p
      = [(cb1, p), (cb2, p)] := by
  simp [Context.new, Context.notify, Context.listen, Context.mediator,
    allocMediator, allocSettings, mediatorListen, mediatorNotify]

/-- C6: notifying an event for which no callback is registered is a
no-op: the invocation sequence is empty.  `notify` in the model is a
pure read of the bus — it returns its invocation list and leaves every
world component untouched — and it is a total function, so no error is
raised. -/
theorem claim_C6_unheard_notify (c : Context) (w : World) (E : String) (p : JSValue)
    (hnone : ∀ cb, (E, cb) ∉ (w.mediatorAt c.mediator).getD []) :
    Context.notify c w E p = [] := by
  unfold Context.notify mediatorNotify
  rw [List.map_eq_nil_iff]
  rw [List.filter_eq_nil_iff]
  intro a ha
  have hne : a.1 ≠ E := by
    intro heq
    exact hnone a.2 (by rw [← heq]; exact ha)
  simp [hne]

/-- C6 witness: on the fixture root context (fresh bus, nothing ever
registered) notifying `"X"` with `undefined` yields no invocation. -/
theorem claim_C6_witness :
    Context.notify rootPair.1 rootPair.2 "X" JSValue.undef = [] :=
  claim_C6_unheard_notify rootPair.1 rootPair.2 "X" JSValue.undef
    (by
      intro cb
      simp [rootPair, Context.new, Context.mediator, allocMediator, allocSettings,
        emptyWorld])

/-- C1: root `R` and child `C = new Context(R)` share one bus.  For any
sequence of registrations performed through `R`, a `notify` through `C`
invokes every callback registered for that event with the payload, and
symmetrically for registrations through `C` and a `notify` through
`R`. -/
theorem claim_C1_shared_bus (w : World) (E : String) (p : JSValue)
    (regs : List (String × Nat)) (cb : Nat) (hmem : (E, cb) ∈ regs) :
    ((cb, p) ∈ Context.notify
        (Context.new (some (Context.new none w).1) (Context.new none w).2).1
        (regs.foldl (fun acc ec => Context.listen (Context.new none w).1 acc ec.1 ec.2)
          (Context.new (some (Context.new none w).1) (Context.new none w).2).2)
        E p) ∧
    ((cb, p) ∈ Context.notify (Context.new none w).1
        (regs.foldl
          (fun acc ec => Context.listen
            (Context.new (some (Context.new none w).1) (Context.new none w).2).1
            acc ec.1 ec.2)
          (Context.new (some (Context.new none w).1) (Context.new none w).2).2)
        E p) := by
  have hmid : (Context.new (some (Context.new none w).1) (Context.new none w).2).2.mediatorAt
      (Context.new none w).1.mediator = some [] := by
    simp [Context.new, Context.mediator, allocMediator, allocSettings]
  constructor
  · have hfold := mediatorListen_foldl (Context.new none w).1.mediator regs
      (Context.new (some (Context.new none w).1) (Context.new none w).2).2 [] hmid
    exact mediatorNotify_mem _ _ _ _ _ hfold cb (by simpa using hmem)
  · have hfold := mediatorListen_foldl (Context.new none w).1.mediator regs
      (Context.new (some (Context.new none w).1) (Context.new none w).2).2 [] hmid
    exact mediatorNotify_mem _ _ _ _ _ hfold cb (by simpa using hmem)

/-- C1 witness: registering callback `7` for `"PING"` through the root
and notifying `"PING"` with `42` through the child invokes `7` with
`42`, and symmetrically. -/
theorem claim_C1_witness :
    (("PING", (7 : Nat)) ∈ [(("PING" : String), (7 : Nat))]) ∧
    ((7, JSValue.num 42) ∈ Context.notify
        (Context.new (some (Context.new none emptyWorld).1)
          (Context.new none emptyWorld).2).1
        ([(("PING" : String), (7 : Nat))].foldl
          (fun acc ec => Context.listen (Context.new none emptyWorld).1 acc ec.1 ec.2)
          (Context.new (some (Context.new none emptyWorld).1)
            (Context.new none emptyWorld).2).2)
        "PING" (JSValue.num 42)) :=
  ⟨by simp,
   (claim_C1_shared_bus emptyWorld "PING" (JSValue.num 42)
     [("PING", 7)] 7 (by simp)).1⟩

/-- C4: with root `R` (holding arbitrary prior settings `mR`) and child
`C = new Context(R)`, loading `{k: v}` into `C` leaves every key of
`R.getSettings()` unchanged, while `C.getSettings()` afterwards maps
`k` to `v`, overriding any ancestor entry for `k`. -/
theorem claim_C4_isolation (w : World) (mR : JSMap) (k : String) (v : JSValue) :
    (∀ q, Context.getSettings (Context.new none w).1
        (Context.addSettings
          (Context.new (some (Context.new none w).1)
            (Context.addSettings (Context.new none w).1 (Context.new none w).2 mR)).1
          (Context.new (some (Context.new none w).1)
            (Context.addSettings (Context.new none w).1 (Context.new none w).2 mR)).2
          (singleMap k v))
        q
      = Context.getSettings (Context.new none w).1
          (Context.new (some (Context.new none w).1)
            (Context.addSettings (Context.new none w).1 (Context.new none w).2 mR)).2
          q) ∧
    Context.getSettings
        (Context.new (some (Context.new none w).1)
          (Context.addSettings (Context.new none w).1 (Context.new none w).2 mR)).1
        (Context.addSettings
          (Context.new (some (Context.new none w).1)
            (Context.addSettings (Context.new none w).1 (Context.new none w).2 mR)).1
          (Context.new (some (Context.new none w).1)
            (Context.addSettings (Context.new none w).1 (Context.new none w).2 mR)).2
          (singleMap k v))
        k
      = some v := by
  constructor
  · intro q
    simp [Context.new, Context.getSettings, Context.addSettings, Context.settings,
      allocMediator, allocSettings, settingsLoad, items, itemsGo, loadMerge,
      Nat.succ_ne_self]
  · simp [Context.new, Context.getSettings, Context.addSettings, Context.settings,
      allocMediator, allocSettings, settingsLoad, items, itemsGo, loadMerge,
      singleMap, Nat.succ_ne_self]

/-- C5: `addSettings` is idempotent under identical repeated input:
loading the same mapping twice produces the very same world as loading
it once — in particular every context's `getSettings()`/`items()`
result is unchanged by the repetition. -/
theorem claim_C5_idempotent (c : Context) (w : World) (m : JSMap) :
    Context.addSettings c (Context.addSettings c w m) m = Context.addSettings c w m ∧
    ∀ (d : Context) (q : String),
      Context.getSettings d (Context.addSettings c (Context.addSettings c w m) m) q
        = Context.getSettings d (Context.addSettings c w m) q := by
  have hmap : ∀ (o : Option SettingsNode),
      Option.map (fun nd => (⟨loadMerge nd.own m, nd.parent⟩ : SettingsNode))
        (Option.map (fun nd => (⟨loadMerge nd.own m, nd.parent⟩ : SettingsNode)) o)
      = Option.map (fun nd => (⟨loadMerge nd.own m, nd.parent⟩ : SettingsNode)) o := by
    intro o
    cases o with
    | none => rfl
    | some nd =>
      simp only [Option.map_some']
      have hmm : loadMerge (loadMerge nd.own m) m = loadMerge nd.own m := by
        funext q
        unfold loadMerge
        cases m q <;> rfl
      rw [hmm]
  have hworld :
      Context.addSettings c (Context.addSettings c w m) m = Context.addSettings c w m := by
    unfold Context.addSettings settingsLoad
    congr 1
    funext j
    by_cases hj : j = c.settings
    · subst hj
      simp [hmap]
    · simp [hj]
  exact ⟨hworld, fun d q => by rw [hworld]⟩

/-- Appending one mapping to a chain description: the appended (deepest)
mapping wins wherever it defines the key. -/
theorem specMerge_append (acc : List JSMap) (m : JSMap) (q : String) :
    specMerge (acc ++ [m]) q
      = match m q with
        | some v => some v
        | none => specMerge acc q := by
  unfold specMerge
  rw [List.foldl_append]
  rfl

/-- Walking `buildChainFrom`: if the current node's flattened view is
`specMerge acc`, the deepest node of the extended chain flattens to
`specMerge (acc ++ ms)`. -/
theorem buildChainFrom_getSettings (ms : List JSMap) :
    ∀ (c : Context) (w : World) (acc : List JSMap),
    WFW w → c.settings < w.nextSettings →
    (∀ q, items w c.settings q = specMerge acc q) →
    ∀ q, items (buildChainFrom c w ms).2 (buildChainFrom c w ms).1.settings q
      = specMerge (acc ++ ms) q := by
  induction ms with
  | nil =>
    intro c w acc _ _ hitems q
    simpa using hitems q
  | cons m rest ih =>
    intro c w acc hwf hlt hitems q
    have hwf1 : WFW (Context.new (some c) w).2 := by
      refine WFW.setAlloc w hwf (some c.settings) ?_
      intro j hj
      cases hj
      exact hlt
    have hwf2 : WFW (Context.addSettings (Context.new (some c) w).1
        (Context.new (some c) w).2 m) :=
      WFW.setLoad (Context.new (some c) w).2 hwf1
        (Context.new (some c) w).1.settings m
    have hlt2 : (Context.new (some c) w).1.settings
        < (Context.addSettings (Context.new (some c) w).1
            (Context.new (some c) w).2 m).nextSettings :=
      Nat.lt_succ_self w.nextSettings
    have hnode : (Context.addSettings (Context.new (some c) w).1
          (Context.new (some c) w).2 m).settingsNode
          (Context.new (some c) w).1.settings
        = some ⟨loadMerge (fun _ => none) m, some c.settings⟩ := by
      simp [Context.addSettings, settingsLoad, Context.new, allocSettings,
        Context.settings, loadMerge]
    have hagree : ∀ j, j ≤ c.settings →
        (Context.addSettings (Context.new (some c) w).1
          (Context.new (some c) w).2 m).settingsNode j = w.settingsNode j := by
      intro j hj
      have hjw : j < w.nextSettings := lt_of_le_of_lt hj hlt
      have hjne : ¬j = w.nextSettings := by omega
      simp [Context.addSettings, settingsLoad, Context.new, allocSettings,
        Context.settings, hjne]
    have hitems2 : ∀ q2, items (Context.addSettings (Context.new (some c) w).1
          (Context.new (some c) w).2 m)
          (Context.new (some c) w).1.settings q2
        = specMerge (acc ++ [m]) q2 := by
      intro q2
      rw [specMerge_append]
      cases hmq : m q2 with
      | some v =>
        simp [items, itemsGo, hnode, loadMerge, hmq]
      | none =>
        have hstep : items (Context.addSettings (Context.new (some c) w).1
              (Context.new (some c) w).2 m)
              (Context.new (some c) w).1.settings q2
            = itemsGo (Context.addSettings (Context.new (some c) w).1
                (Context.new (some c) w).2 m)
                (Context.new (some c) w).1.settings c.settings q2 := by
          simp [items, itemsGo, hnode, loadMerge, hmq]
        have hfuel : itemsGo (Context.addSettings (Context.new (some c) w).1
              (Context.new (some c) w).2 m)
              (Context.new (some c) w).1.settings c.settings q2
            = items (Context.addSettings (Context.new (some c) w).1
                (Context.new (some c) w).2 m) c.settings q2 :=
          itemsGo_fuel _ hwf2 c.settings (Context.new (some c) w).1.settings
            (c.settings + 1) hlt (Nat.lt_succ_self _) q2
        have hcongr : items (Context.addSettings (Context.new (some c) w).1
              (Context.new (some c) w).2 m) c.settings q2
            = items w c.settings q2 :=
          items_congr w _ hwf c.settings hagree q2
        rw [hstep, hfuel, hcongr, hitems q2]
    have hres := ih (Context.new (some c) w).1
      (Context.addSettings (Context.new (some c) w).1 (Context.new (some c) w).2 m)
      (acc ++ [m]) hwf2 hlt2 hitems2 q
    simpa [buildChainFrom] using hres

/-- C3: for every settings chain built by repeated child construction
(each node loaded with its own mapping), `getSettings()`/`items()` on
the deepest node equals the root-first merge of all the nodes' own
mappings, with the mapping closest to the deepest node winning for any
key defined at several nodes. -/
theorem claim_C3_shadowing (w : World) (m0 : JSMap) (ms : List JSMap)
    (hw : WFW w) (k : String) :
    Context.getSettings (buildChain w m0 ms).1 (buildChain w m0 ms).2 k
      = specMerge (m0 :: ms) k := by
  have hwf1 : WFW (Context.new none w).2 := by
    refine WFW.setAlloc _ (WFW.medAlloc w hw) none ?_
    intro j hj
    cases hj
  have hwf2 : WFW (Context.addSettings (Context.new none w).1 (Context.new none w).2 m0) :=
    WFW.setLoad _ hwf1 (Context.new none w).1.settings m0
  have hlt : (Context.new none w).1.settings
      < (Context.addSettings (Context.new none w).1 (Context.new none w).2 m0).nextSettings :=
    Nat.lt_succ_self w.nextSettings
  have hitems : ∀ q, items (Context.addSettings (Context.new none w).1
        (Context.new none w).2 m0) (Context.new none w).1.settings q
      = specMerge [m0] q := by
    intro q
    have hnode : (Context.addSettings (Context.new none w).1
          (Context.new none w).2 m0).settingsNode (Context.new none w).1.settings
        = some ⟨loadMerge (fun _ => none) m0, none⟩ := by
      simp [Context.addSettings, settingsLoad, Context.new, allocSettings,
        allocMediator, Context.settings, loadMerge]
    cases hmq : m0 q with
    | some v => simp [items, itemsGo, hnode, loadMerge, hmq, specMerge]
    | none => simp [items, itemsGo, hnode, loadMerge, hmq, specMerge]
  have hres := buildChainFrom_getSettings ms (Context.new none w).1
    (Context.addSettings (Context.new none w).1 (Context.new none w).2 m0)
    [m0] hwf2 hlt hitems k
  simpa [buildChain] using hres

/-- C3 witness: the spec's concrete scenario — root loaded with
`{lang: "en"}`, child loaded with `{lang: "fr"}` — gives
`deepest.getSettings().lang = "fr"`. -/
theorem claim_C3_witness :
    Context.getSettings
        (buildChain emptyWorld (singleMap "lang" (JSValue.str "en"))
          [singleMap "lang" (JSValue.str "fr")]).1
        (buildChain emptyWorld (singleMap "lang" (JSValue.str "en"))
          [singleMap "lang" (JSValue.str "fr")]).2
        "lang"
      = some (JSValue.str "fr") := by
  rw [claim_C3_shadowing emptyWorld (singleMap "lang" (JSValue.str "en"))
    [singleMap "lang" (JSValue.str "fr")] WFW.empty "lang"]
  rfl

/-- C10: after constructing the lottery ViewModel on a context, `hasWon`
is `false` and the two number observables are undefined; construction
registers exactly one listener, for `"LOTTERY_ACTIVITY"`, on the
context's bus (one new registration there, every other bus and the
settings heap untouched); and on every `"LOTTERY_ACTIVITY"` dispatch
with payload `n` and random draw `r ∈ [0, 1)`, `yourNumber` becomes
`n`, `luckyNumber` becomes an integer between 1 and 3, `hasWon` becomes
true exactly when `luckyNumber` strictly equals `n` — so `hasWon` can
only become true when `n` is 1, 2 or 3. -/
theorem claim_C10_lottery (c : Context) (w : World) (chan : MediatorState)
    (hmed : w.mediatorAt c.mediator = some chan)
    (r : ℚ) (hr0 : 0 ≤ r) (hr1 : r < 1) (vm : ViewModel) (n : JSValue) :
    (ViewModel.new c w).1.hasWon = false ∧
    (ViewModel.new c w).1.luckyNumber = none ∧
    (ViewModel.new c w).1.yourNumber = none ∧
    (ViewModel.new c w).2.mediatorAt c.mediator
      = some (chan ++ [("LOTTERY_ACTIVITY", w.nextCallback)]) ∧
    (∀ j, j ≠ c.mediator → (ViewModel.new c w).2.mediatorAt j = w.mediatorAt j) ∧
    (ViewModel.new c w).2.settingsNode = w.settingsNode ∧
    (lotteryStep r vm n).yourNumber = some n ∧
    (∃ m : ℤ, 1 ≤ m ∧ m ≤ 3 ∧
      (lotteryStep r vm n).luckyNumber = some (m : ℚ) ∧
      ((lotteryStep r vm n).hasWon = true ↔ n = JSValue.num (m : ℚ))) ∧
    ((lotteryStep r vm n).hasWon = true →
      n = JSValue.num 1 ∨ n = JSValue.num 2 ∨ n = JSValue.num 3) := by
  have hfloor0 : (0 : ℤ) ≤ ⌊r * 3⌋ := by
    rw [Int.le_floor]
    push_cast
    nlinarith
  have hfloor2 : ⌊r * 3⌋ ≤ 2 := by
    have : ⌊r * 3⌋ < 3 := by
      rw [Int.floor_lt]
      push_cast
      nlinarith
    omega
  refine ⟨rfl, rfl, rfl, ?_, ?_, ?_, rfl, ?_, ?_⟩
  · show (Context.listen c { w with nextCallback := w.nextCallback + 1 }
        "LOTTERY_ACTIVITY" w.nextCallback).mediatorAt c.mediator
      = some (chan ++ [("LOTTERY_ACTIVITY", w.nextCallback)])
    unfold Context.listen mediatorListen
    simp only []
    rw [show ({ w with nextCallback := w.nextCallback + 1 } : World).mediatorAt
        = w.mediatorAt from rfl, hmed]
    simp
  · intro j hj
    show (Context.listen c { w with nextCallback := w.nextCallback + 1 }
        "LOTTERY_ACTIVITY" w.nextCallback).mediatorAt j = w.mediatorAt j
    unfold Context.listen mediatorListen
    rw [show ({ w with nextCallback := w.nextCallback + 1 } : World).mediatorAt
        = w.mediatorAt from rfl, hmed]
    simp [hj]
  · show (Context.listen c { w with nextCallback := w.nextCallback + 1 }
        "LOTTERY_ACTIVITY" w.nextCallback).settingsNode = w.settingsNode
    unfold Context.listen mediatorListen
    rw [show ({ w with nextCallback := w.nextCallback + 1 } : World).mediatorAt
        = w.mediatorAt from rfl, hmed]
  · refine ⟨⌊r * 3⌋ + 1, by omega, by omega, ?_, ?_⟩
    · show some (((⌊r * 3⌋ : ℤ) : ℚ) + 1) = some ((((⌊r * 3⌋ + 1) : ℤ)) : ℚ)
      push_cast
      ring_nf
    · show ((JSValue.num (((⌊r * 3⌋ : ℤ) : ℚ) + 1) == n) = true
          ↔ n = JSValue.num (((⌊r * 3⌋ + 1 : ℤ)) : ℚ))
      rw [beq_iff_eq]
      push_cast
      exact eq_comm
  · intro hwon
    have heq : JSValue.num (((⌊r * 3⌋ : ℤ) : ℚ) + 1) = n := beq_iff_eq.mp hwon
    have hcases : ⌊r * 3⌋ = 0 ∨ ⌊r * 3⌋ = 1 ∨ ⌊r * 3⌋ = 2 := by omega
    rcases hcases with h0 | h1 | h2
    · left
      rw [← heq, h0]
      norm_num
    · right; left
      rw [← heq, h1]
      norm_num
    · right; right
      rw [← heq, h2]
      norm_num

/-- C10 witness: on the fixture root context (its bus holds `some []`)
with random draw `1/2` and payload `2`, the theorem's hypotheses hold
concretely; after the dispatch `yourNumber` is the payload `2`. -/
theorem claim_C10_witness :
    rootPair.2.mediatorAt rootPair.1.mediator = some [] ∧
    (0 : ℚ) ≤ 1 / 2 ∧ (1 : ℚ) / 2 < 1 ∧
    (lotteryStep (1 / 2) ⟨false, none, none⟩ (JSValue.num 2)).yourNumber
      = some (JSValue.num 2) :=
  ⟨rfl, by norm_num, by norm_num,
   (claim_C10_lottery rootPair.1 rootPair.2 [] rfl (1 / 2) (by norm_num) (by norm_num)
     ⟨false, none, none⟩ (JSValue.num 2)).2.2.2.2.2.2.1⟩
